import Mathlib

set_option linter.unusedVariables false

/-!
Verification of `batch_summarize_pdfs.py`: a shallow embedding of the PDF
batch-summarization pipeline (document locator, text extractor, placeholder
summarizer, batch orchestrator, JSON/CSV serializers) together with theorems
about the spec-level properties of each component.

Modelling conventions:
* A PDF file is a path plus a list of pages; each page either yields an
  optional text (`Page.ok`, `none` modelling a falsy `extract_text()` result)
  or raises (`Page.err` with the exception message).
* The environment records whether `pypdf` imported successfully, whether the
  root directory exists, and the files found under it.
* Fallible Python functions become `Except PyError`; the two output files are
  modelled as `Option String` (`none` = the file was neither created nor
  modified by the run).
* `str.join` / `",".join`-style joining is modelled by `joinSep`; Python's
  stable `sorted(...)` on `pathlib` paths is modelled by `List.insertionSort`
  over the `PurePath` order: lexicographic on the list of path components
  (the path split at `/`), each component compared character-wise.
* `json.dump(..., ensure_ascii=False, indent=2)` is modelled exactly,
  character for character, by `write_json`; `parseJson` is an independent
  JSON reader used to state the round-trip property.
-/

/-- `sep.join(pieces)`: concatenate the pieces with `sep` between them. -/
def joinSep (sep : String) : List String → String
  | [] => ""
  | [x] => x
  | x :: y :: t => x ++ sep ++ joinSep sep (y :: t)

/-- A single page of a PDF, as seen by `page.extract_text()`:
either a successfully extracted optional text, or a raised exception. -/
inductive Page where
  | ok (text : Option String)
  | err (msg : String)
deriving DecidableEq, Repr

/-- A PDF file on disk: its full path and its pages. -/
structure PdfFile where
  path : String
  pages : List Page
deriving DecidableEq, Repr

/-- Scan the characters of a path keeping the component after the last slash. -/
def baseNameData : List Char → List Char → List Char
  | [], cur => cur.reverse
  | c :: rest, cur => if c = '/' then baseNameData rest [] else baseNameData rest (c :: cur)

/-- `Path.name`: the final component of a path (substring after the last slash). -/
def baseName (p : String) : String :=
  String.mk (baseNameData p.data [])

/-- The runtime environment of one invocation of the script. -/
structure Env where
  pypdfAvailable : Bool
  root : String
  rootExists : Bool
  entries : List PdfFile
deriving Repr

/-- The Python exceptions the script can raise. -/
inductive PyError where
  | fileNotFoundError (msg : String)
  | runtimeError (msg : String)
deriving DecidableEq, Repr

/-- Split a path's characters into its components at `/` (accumulator holds
the current component reversed), as `PurePath.parts` does. -/
def splitSlash : List Char → List Char → List (List Char)
  | [], cur => [cur.reverse]
  | c :: rest, cur =>
    if c = '/' then cur.reverse :: splitSlash rest [] else splitSlash rest (c :: cur)

/-- The component list of a path, as compared by `PurePath` ordering. -/
def pathParts (p : String) : List (List Char) :=
  splitSlash p.data []

/-- Path comparison used by `sorted(...)` on `pathlib` paths: `Path.__lt__`
compares the tuples of path components, so the order is lexicographic on the
component list (each component compared character-wise), not on the raw
full-path string. -/
def pathLe (a b : PdfFile) : Prop :=
  pathParts a.path ≤ pathParts b.path

instance : DecidableRel pathLe :=
  fun a b => inferInstanceAs (Decidable (pathParts a.path ≤ pathParts b.path))

instance : IsTotal PdfFile pathLe :=
  ⟨fun a b => le_total (pathParts a.path) (pathParts b.path)⟩

instance : IsTrans PdfFile pathLe :=
  ⟨fun _ _ _ h1 h2 => le_trans h1 h2⟩

/-- Does an entry's final name component match the glob pattern `*.pdf`
(exact, case-sensitive suffix)? -/
def matchesPdf (e : PdfFile) : Bool :=
  List.isPrefixOf ['f', 'd', 'p', '.'] (baseName e.path).data.reverse

/-- `find_pdf_files`: if the root directory does not exist, raise
`FileNotFoundError`; otherwise return the matching entries sorted by path. -/
def find_pdf_files (env : Env) : Except PyError (List PdfFile) :=
  if env.rootExists then
    .ok ((env.entries.filter matchesPdf).insertionSort pathLe)
  else
    .error (.fileNotFoundError ("Directory not found: " ++ env.root))

/-- The list the locator returns on an existing root. -/
def pdfsOf (env : Env) : List PdfFile :=
  (env.entries.filter matchesPdf).insertionSort pathLe

/-- One iteration of the page loop: `page.extract_text() or ""`,
or the exception the page raised. -/
def pageText : Page → Except String String
  | .ok t => .ok (t.getD "")
  | .err m => .error m

/-- The page loop of `extract_text_from_pdf`: collect per-page texts in order,
aborting at the first page whose extraction raises. -/
def extractPageTexts : List Page → Except String (List String)
  | [] => .ok []
  | pg :: rest =>
    match pageText pg with
    | .error m => .error m
    | .ok t =>
      match extractPageTexts rest with
      | .error m => .error m
      | .ok ts => .ok (t :: ts)

/-- The installation hint raised when `pypdf` failed to import. -/
def pypdfMissingMsg : String :=
  "pypdf is required for text extraction. Please install it via 'pip install pypdf'."

/-- `extract_text_from_pdf`: check the `pypdf` import, then extract each page's
text in order (empty string for a page with no text), wrap a page-level
exception in a `RuntimeError` naming the file, and join page texts with a
newline. -/
def extract_text_from_pdf (avail : Bool) (pdf : PdfFile) : Except PyError String :=
  if avail then
    match extractPageTexts pdf.pages with
    | .error exc =>
      .error (.runtimeError ("Failed to extract text from " ++ pdf.path ++ ": " ++ exc))
    | .ok ts => .ok (joinSep "\n" ts)
  else
    .error (.runtimeError pypdfMissingMsg)

/-- A summary record: an insertion-ordered mapping of field names to values. -/
abbrev SummaryRecord := List (String × String)

/-- The fixed schema of a summary record, in order. -/
def summaryFields : List String :=
  ["id", "title", "year", "venue", "study_type", "environment", "interface_type",
   "task", "participants", "measures", "main_findings", "relevance_to_my_thesis"]

/-- `summarize_paper`: the placeholder summarizer, pure data construction.
The `text` argument is accepted but unused by the placeholder. -/
def summarize_paper (text : String) (filename : String) : SummaryRecord :=
  [("id", filename),
   ("title", "TBD"),
   ("year", ""),
   ("venue", ""),
   ("study_type", ""),
   ("environment", ""),
   ("interface_type", ""),
   ("task", ""),
   ("participants", ""),
   ("measures", ""),
   ("main_findings", "- Placeholder finding\n- Add LLM output here"),
   ("relevance_to_my_thesis", "Placeholder relevance for future LLM integration.")]

/-- `summarize_pdfs`: extract and summarize each PDF in order, propagating the
first extraction error. -/
def summarize_pdfs (avail : Bool) : List PdfFile → Except PyError (List SummaryRecord)
  | [] => .ok []
  | pdf :: rest =>
    match extract_text_from_pdf avail pdf with
    | .error e => .error e
    | .ok text =>
      match summarize_pdfs avail rest with
      | .error e => .error e
      | .ok rs => .ok (summarize_paper text (baseName pdf.path) :: rs)

/-- Lowercase hex digit for `n < 16`. -/
def hexDigitChar (n : Nat) : Char :=
  if n < 10 then Char.ofNat (48 + n) else Char.ofNat (87 + n)

/-- Python `json` string escaping with `ensure_ascii=False`: escape backslash,
double quote, the short control escapes, and remaining control characters as
`\u00xx`; all other characters pass through. -/
def escChar (c : Char) : List Char :=
  if c = '\\' then ['\\', '\\']
  else if c = '"' then ['\\', '"']
  else if c = '\n' then ['\\', 'n']
  else if c = '\t' then ['\\', 't']
  else if c = '\x0d' then ['\\', 'r']
  else if c = '\x08' then ['\\', 'b']
  else if c = '\x0c' then ['\\', 'f']
  else if c.toNat < 32 then
    ['\\', 'u', '0', '0', hexDigitChar (c.toNat / 16), hexDigitChar (c.toNat % 16)]
  else [c]

/-- A JSON string literal for `s`. -/
def pyJsonQuote (s : String) : String :=
  "\"" ++ String.mk (s.data.flatMap escChar) ++ "\""

/-- One `"key": "value"` member. -/
def renderPair (kv : String × String) : String :=
  pyJsonQuote kv.1 ++ ": " ++ pyJsonQuote kv.2

/-- One record as a JSON object, indented as `json.dump(..., indent=2)`
renders an object nested at depth 2. -/
def renderObj (r : SummaryRecord) : String :=
  match r with
  | [] => "\x7b\x7d"
  | _ => "\x7b\n    " ++ joinSep ",\n    " (r.map renderPair) ++ "\n  \x7d"

/-- `write_json`: the exact file content produced by
`json.dump(data, f, ensure_ascii=False, indent=2)`. -/
def write_json (data : List SummaryRecord) : String :=
  match data with
  | [] => "[]"
  | _ => "[\n  " ++ joinSep ",\n  " (data.map renderObj) ++ "\n]"

/-- Does the string contain the character? -/
def strContains (s : String) (c : Char) : Bool :=
  s.data.any (fun x => x = c)

/-- Double an embedded CSV quote. -/
def dupQuoteChar (c : Char) : List Char :=
  if c = '"' then ['"', '"'] else [c]

/-- Minimal CSV quoting: quote a field containing a comma, quote, CR or LF,
doubling embedded quotes. -/
def csvQuote (s : String) : String :=
  if strContains s ',' || strContains s '"' || strContains s '\n' || strContains s '\x0d' then
    "\"" ++ String.mk (s.data.flatMap dupQuoteChar) ++ "\""
  else s

/-- One CSV row with the writer's default `\r\n` terminator. -/
def csvRow (cells : List String) : String :=
  joinSep "," (cells.map csvQuote) ++ "\x0d\n"

/-- `write_csv`: `none` models the early return on empty data (the output file
is neither created nor modified); otherwise the header row is taken from the
first record's keys and each record contributes one row. -/
def write_csv (data : List SummaryRecord) : Option String :=
  match data with
  | [] => none
  | first :: _ =>
    let fieldnames := first.map Prod.fst
    some (csvRow fieldnames ++
      String.join (data.map fun r => csvRow (fieldnames.map fun k => (r.lookup k).getD "")))

/-- The two output files after a run: `none` = not written. -/
structure OutFiles where
  jsonOut : Option String
  csvOut : Option String
deriving DecidableEq, Repr

/-- No file was written. -/
def noWrites : OutFiles := ⟨none, none⟩

/-- `main`: locate, summarize, then write both outputs; any error propagates
before either writer runs. (Named `mainRun` because `main` is reserved.) -/
def mainRun (env : Env) : Except PyError Unit × OutFiles :=
  match find_pdf_files env with
  | .error e => (.error e, noWrites)
  | .ok pdf_paths =>
    match summarize_pdfs env.pypdfAvailable pdf_paths with
    | .error e => (.error e, noWrites)
    | .ok summaries => (.ok (), ⟨some (write_json summaries), write_csv summaries⟩)

/-- Did the page extract without raising? -/
def pageOk : Page → Bool
  | .ok _ => true
  | .err _ => false

/-- The text a non-raising page contributes (`extract_text() or ""`). -/
def pageTextD : Page → String
  | .ok t => t.getD ""
  | .err _ => ""

/-- Value of a hexadecimal digit character. -/
def hexVal (c : Char) : Option Nat :=
  if '0' ≤ c ∧ c ≤ '9' then some (c.toNat - 48)
  else if 'a' ≤ c ∧ c ≤ 'f' then some (c.toNat - 87)
  else if 'A' ≤ c ∧ c ≤ 'F' then some (c.toNat - 55)
  else none

/-- The single-character JSON escapes. -/
def unescSimple (c : Char) : Option Char :=
  if c = '"' then some '"'
  else if c = '\\' then some '\\'
  else if c = '/' then some '/'
  else if c = 'n' then some '\n'
  else if c = 't' then some '\t'
  else if c = 'r' then some '\x0d'
  else if c = 'b' then some '\x08'
  else if c = 'f' then some '\x0c'
  else none

/-- Read the body of a JSON string literal (after the opening quote) up to the
closing quote, decoding escapes; raw control characters are rejected. -/
def parseStringBody : List Char → Option (List Char × List Char)
  | [] => none
  | c :: rest =>
    if c = '"' then some ([], rest)
    else if c = '\\' then
      match rest with
      | [] => none
      | e :: rest2 =>
        if e = 'u' then
          match rest2 with
          | d1 :: d2 :: d3 :: d4 :: rest3 =>
            match hexVal d1, hexVal d2, hexVal d3, hexVal d4 with
            | some a, some b, some c2, some d =>
              if Nat.isValidChar (((a * 16 + b) * 16 + c2) * 16 + d) then
                (parseStringBody rest3).map
                  (fun p => (Char.ofNat (((a * 16 + b) * 16 + c2) * 16 + d) :: p.1, p.2))
              else none
            | _, _, _, _ => none
          | _ => none
        else
          match unescSimple e with
          | some u => (parseStringBody rest2).map (fun p => (u :: p.1, p.2))
          | none => none
    else if c.toNat < 32 then none
    else (parseStringBody rest).map (fun p => (c :: p.1, p.2))

/-- JSON whitespace. -/
def isWs (c : Char) : Bool := c = ' ' || c = '\n' || c = '\t' || c = '\x0d'

/-- Skip leading JSON whitespace. -/
def skipWs : List Char → List Char
  | [] => []
  | c :: rest => if isWs c then skipWs rest else c :: rest

/-- Read a JSON string literal. -/
def parseString (l : List Char) : Option (String × List Char) :=
  match l with
  | [] => none
  | c :: rest =>
    if c = '"' then (parseStringBody rest).map (fun p => (String.mk p.1, p.2)) else none

/-- Read the members of a JSON object (positioned at the first key), the fuel
bounding the number of members; callers pass the remaining input length, which
always suffices since each member consumes at least one character. -/
def parseMembersF : Nat → List Char → Option (SummaryRecord × List Char)
  | 0, _ => none
  | fuel + 1, l =>
    match parseString l with
    | none => none
    | some (k, r1) =>
      match skipWs r1 with
      | [] => none
      | c :: r2 =>
        if c = ':' then
          match parseString (skipWs r2) with
          | none => none
          | some (v, r3) =>
            match skipWs r3 with
            | [] => none
            | t :: r4 =>
              if t = ',' then
                match parseMembersF fuel (skipWs r4) with
                | none => none
                | some (ms, rest) => some ((k, v) :: ms, rest)
              else if t = '\x7d' then some ([(k, v)], r4)
              else none
        else none

/-- Read one JSON object of string fields. -/
def parseObject (l : List Char) : Option (SummaryRecord × List Char) :=
  match l with
  | [] => none
  | c :: r =>
    if c = '\x7b' then
      match skipWs r with
      | [] => none
      | c2 :: r2 =>
        if c2 = '\x7d' then some ([], r2)
        else parseMembersF (c2 :: r2).length (c2 :: r2)
    else none

/-- Read the elements of a JSON array of objects (positioned at the first
element), fuel as in `parseMembersF`. -/
def parseElemsF : Nat → List Char → Option (List SummaryRecord × List Char)
  | 0, _ => none
  | fuel + 1, l =>
    match parseObject l with
    | none => none
    | some (obj, r1) =>
      match skipWs r1 with
      | [] => none
      | c :: r2 =>
        if c = ',' then
          match parseElemsF fuel (skipWs r2) with
          | none => none
          | some (objs, rest) => some (obj :: objs, rest)
        else if c = ']' then some ([obj], r2)
        else none

/-- Read a complete JSON document: an array of objects of string fields,
with nothing but whitespace around it. -/
def parseJson (s : String) : Option (List SummaryRecord) :=
  match skipWs s.data with
  | [] => none
  | c :: r =>
    if c = '[' then
      match skipWs r with
      | [] => none
      | c2 :: r2 =>
        if c2 = ']' then (if skipWs r2 = [] then some [] else none)
        else
          match parseElemsF (c2 :: r2).length (c2 :: r2) with
          | none => none
          | some (objs, rest) => if skipWs rest = [] then some objs else none
    else none
theorem psb_quote (r : List Char) : parseStringBody ('"' :: r) = some ([], r) := by
  rw [parseStringBody.eq_def]
  dsimp only
  rw [if_pos rfl]

theorem psb_cons (c : Char) (r : List Char) (h1 : ¬ c = '"') (h2 : ¬ c = '\\')
    (h3 : ¬ c.toNat < 32) :
    parseStringBody (c :: r) = (parseStringBody r).map (fun p => (c :: p.1, p.2)) := by
  rw [parseStringBody.eq_def]
  dsimp only
  rw [if_neg h1, if_neg h2, if_neg h3]

theorem psb_esc (e u : Char) (r : List Char) (hne : ¬ e = 'u') (hu : unescSimple e = some u) :
    parseStringBody ('\\' :: e :: r) = (parseStringBody r).map (fun p => (u :: p.1, p.2)) := by
  rw [parseStringBody.eq_def]
  dsimp only
  rw [if_neg (by decide : ¬ ('\\' : Char) = '"'), if_pos rfl]
  rw [if_neg hne, hu]

theorem psb_u (d1 d2 d3 d4 : Char) (r : List Char) (a b c2 d : Nat)
    (ha : hexVal d1 = some a) (hb : hexVal d2 = some b) (hc : hexVal d3 = some c2)
    (hd : hexVal d4 = some d) (hval : Nat.isValidChar (((a * 16 + b) * 16 + c2) * 16 + d)) :
    parseStringBody ('\\' :: 'u' :: d1 :: d2 :: d3 :: d4 :: r) =
      (parseStringBody r).map
        (fun p => (Char.ofNat (((a * 16 + b) * 16 + c2) * 16 + d) :: p.1, p.2)) := by
  rw [parseStringBody.eq_def]
  dsimp only
  rw [if_neg (by decide : ¬ ('\\' : Char) = '"'), if_pos rfl]
  rw [if_pos rfl, ha, hb, hc, hd]
  dsimp only
  rw [if_pos hval]

theorem hexVal_hexDigitChar : ∀ n < 16, hexVal (hexDigitChar n) = some n := by decide

theorem psb_flatMap_escChar (cs : List Char) (rest : List Char) :
    parseStringBody (cs.flatMap escChar ++ '"' :: rest) = some (cs, rest) := by
  induction cs with
  | nil => simp [psb_quote]
  | cons c cs ih =>
    rw [List.flatMap_cons, List.append_assoc, escChar]
    split_ifs with h1 h2 h3 h4 h5 h6 h7 h8
    · subst h1
      simp only [List.cons_append, List.nil_append]
      rw [psb_esc '\\' '\\' _ (by decide) (by decide), ih]
      rfl
    · subst h2
      simp only [List.cons_append, List.nil_append]
      rw [psb_esc '\"' '\"' _ (by decide) (by decide), ih]
      rfl
    · subst h3
      simp only [List.cons_append, List.nil_append]
      rw [psb_esc 'n' '\n' _ (by decide) (by decide), ih]
      rfl
    · subst h4
      simp only [List.cons_append, List.nil_append]
      rw [psb_esc 't' '\t' _ (by decide) (by decide), ih]
      rfl
    · subst h5
      simp only [List.cons_append, List.nil_append]
      rw [psb_esc 'r' '\r' _ (by decide) (by decide), ih]
      rfl
    · subst h6
      simp only [List.cons_append, List.nil_append]
      rw [psb_esc 'b' '\x08' _ (by decide) (by decide), ih]
      rfl
    · subst h7
      simp only [List.cons_append, List.nil_append]
      rw [psb_esc 'f' '\x0c' _ (by decide) (by decide), ih]
      rfl
    · simp only [List.cons_append, List.nil_append]
      have hdiv : c.toNat / 16 < 16 := by omega
      have hmod : c.toNat % 16 < 16 := Nat.mod_lt _ (by omega)
      have hval : Nat.isValidChar (((0 * 16 + 0) * 16 + c.toNat / 16) * 16 + c.toNat % 16) := by
        left
        omega
      rw [psb_u _ _ _ _ _ 0 0 (c.toNat / 16) (c.toNat % 16) (by decide) (by decide)
        (hexVal_hexDigitChar _ hdiv) (hexVal_hexDigitChar _ hmod) hval, ih]
      simp only [Option.map_some']
      rw [show ((0 * 16 + 0) * 16 + c.toNat / 16) * 16 + c.toNat % 16 = c.toNat by omega]
      rw [Char.ofNat_toNat]
    · simp only [List.cons_append, List.nil_append]
      rw [psb_cons c _ h2 h1 h8, ih]
      rfl

theorem skipWs_cons (c : Char) (l : List Char) :
    skipWs (c :: l) = if isWs c then skipWs l else c :: l := rfl

theorem pyJsonQuote_data (s : String) :
    (pyJsonQuote s).data = '"' :: (s.data.flatMap escChar ++ ['"']) := by
  simp [pyJsonQuote, String.data_append]

theorem parseString_pyJsonQuote (s : String) (rest : List Char) :
    parseString ((pyJsonQuote s).data ++ rest) = some (s, rest) := by
  rw [pyJsonQuote_data, List.cons_append, List.append_assoc, List.singleton_append]
  rw [parseString.eq_def]
  dsimp only
  rw [if_pos rfl, psb_flatMap_escChar]
  rfl

theorem renderPair_data (k v : String) :
    (renderPair (k, v)).data = (pyJsonQuote k).data ++ ':' :: ' ' :: (pyJsonQuote v).data := by
  simp [renderPair, String.data_append]

theorem skipWs_pyJsonQuote (s : String) (rest : List Char) :
    skipWs ((pyJsonQuote s).data ++ rest) = (pyJsonQuote s).data ++ rest := by
  rw [pyJsonQuote_data, List.cons_append, skipWs_cons,
    if_neg (by decide : ¬ isWs '"' = true)]

theorem skipWs_renderPair (p : String × String) (rest : List Char) :
    skipWs ((renderPair p).data ++ rest) = (renderPair p).data ++ rest := by
  obtain ⟨k, v⟩ := p
  rw [renderPair_data, List.append_assoc, skipWs_pyJsonQuote]

theorem joinSep_single (sep : String) (x : String) : joinSep sep [x] = x := rfl

theorem joinSep_cons2 (sep x y : String) (t : List String) :
    joinSep sep (x :: y :: t) = x ++ sep ++ joinSep sep (y :: t) := rfl

theorem skipWs_joinSep_renderPair (q : String × String) (t : List (String × String))
    (rest : List Char) :
    skipWs ((joinSep ",\n    " ((q :: t).map renderPair)).data ++ rest) =
      (joinSep ",\n    " ((q :: t).map renderPair)).data ++ rest := by
  cases t with
  | nil =>
    simp only [List.map_cons, List.map_nil, joinSep_single]
    exact skipWs_renderPair q rest
  | cons q2 t2 =>
    simp only [List.map_cons, joinSep_cons2, String.data_append, List.append_assoc]
    rw [skipWs_renderPair]

theorem parseMembersF_render :
    ∀ (r : SummaryRecord) (fuel : Nat), r ≠ [] → r.length ≤ fuel → ∀ rest : List Char,
      parseMembersF fuel
        ((joinSep ",\n    " (r.map renderPair)).data ++ '\n' :: ' ' :: ' ' :: '\x7d' :: rest) =
      some (r, rest) := by
  intro r
  induction r with
  | nil => intro fuel hne; exact absurd rfl hne
  | cons p r' ih =>
    intro fuel _ hlen rest
    obtain ⟨fuel, rfl⟩ : ∃ f, fuel = f + 1 := by
      cases fuel with
      | zero => simp at hlen
      | succ f => exact ⟨f, rfl⟩
    obtain ⟨k, v⟩ := p
    cases r' with
    | nil =>
      simp only [List.map_cons, List.map_nil, joinSep_single, renderPair_data]
      rw [parseMembersF, List.append_assoc, List.cons_append, List.cons_append,
        parseString_pyJsonQuote]
      dsimp only
      rw [skipWs_cons, if_neg (by decide : ¬ isWs ':' = true)]
      dsimp only
      rw [if_pos rfl, skipWs_cons, if_pos (by decide : isWs ' ' = true), skipWs_pyJsonQuote,
        parseString_pyJsonQuote]
      dsimp only
      rw [skipWs_cons, if_pos (by decide : isWs '\n' = true),
        skipWs_cons, if_pos (by decide : isWs ' ' = true),
        skipWs_cons, if_pos (by decide : isWs ' ' = true),
        skipWs_cons, if_neg (by decide : ¬ isWs '\x7d' = true)]
      dsimp only
      rw [if_neg (by decide : ¬ ('\x7d' : Char) = ','), if_pos rfl]
    | cons q t =>
      simp only [List.map_cons, joinSep_cons2, String.data_append, renderPair_data,
        List.append_assoc, List.cons_append]
      rw [parseMembersF, parseString_pyJsonQuote]
      dsimp only
      rw [skipWs_cons, if_neg (by decide : ¬ isWs ':' = true)]
      dsimp only
      rw [if_pos rfl, skipWs_cons, if_pos (by decide : isWs ' ' = true), skipWs_pyJsonQuote,
        parseString_pyJsonQuote]
      dsimp only
      rw [skipWs_cons, if_neg (by decide : ¬ isWs ',' = true)]
      dsimp only
      rw [if_pos rfl, skipWs_cons, if_pos (by decide : isWs '\n' = true),
        skipWs_cons, if_pos (by decide : isWs ' ' = true),
        skipWs_cons, if_pos (by decide : isWs ' ' = true),
        skipWs_cons, if_pos (by decide : isWs ' ' = true),
        skipWs_cons, if_pos (by decide : isWs ' ' = true)]
      rw [List.nil_append, ← List.map_cons renderPair q t, skipWs_joinSep_renderPair]
      have hlen' : (q :: t).length ≤ fuel := by
        simp only [List.length_cons] at hlen ⊢
        omega
      rw [ih fuel (by simp) hlen' rest]

theorem renderPair_data_length (p : String × String) : 1 ≤ (renderPair p).data.length := by
  obtain ⟨k, v⟩ := p
  rw [renderPair_data]
  simp only [List.length_append, List.length_cons]
  omega

theorem length_le_joinSep_renderPair :
    ∀ r : SummaryRecord, r.length ≤ (joinSep ",\n    " (r.map renderPair)).data.length := by
  intro r
  induction r with
  | nil => simp
  | cons p r' ih =>
    cases r' with
    | nil =>
      simp only [List.map_cons, List.map_nil, joinSep_single, List.length_cons,
        List.length_nil]
      exact renderPair_data_length p
    | cons q t =>
      simp only [List.map_cons, joinSep_cons2, String.data_append, List.length_append,
        List.length_cons] at ih ⊢
      have h1 := renderPair_data_length p
      omega

theorem renderObj_cons (p : String × String) (t : List (String × String)) :
    renderObj (p :: t) =
      "\x7b\n    " ++ joinSep ",\n    " ((p :: t).map renderPair) ++ "\n  \x7d" := by
  rw [renderObj]
  intro h
  exact absurd h (by simp)

theorem write_json_cons (d : SummaryRecord) (t : List SummaryRecord) :
    write_json (d :: t) =
      "[\n  " ++ joinSep ",\n  " ((d :: t).map renderObj) ++ "\n]" := by
  rw [write_json]
  intro h
  exact absurd h (by simp)

theorem renderObj_data_length (r : SummaryRecord) : 1 ≤ (renderObj r).data.length := by
  cases r with
  | nil => simp [renderObj]
  | cons p t =>
    rw [renderObj_cons]
    simp [String.data_append]

theorem length_le_joinSep_renderObj :
    ∀ objs : List SummaryRecord,
      objs.length ≤ (joinSep ",\n  " (objs.map renderObj)).data.length := by
  intro objs
  induction objs with
  | nil => simp
  | cons o t ih =>
    cases t with
    | nil =>
      simp only [List.map_cons, List.map_nil, joinSep_single, List.length_cons,
        List.length_nil]
      exact renderObj_data_length o
    | cons o2 t2 =>
      simp only [List.map_cons, joinSep_cons2, String.data_append, List.length_append,
        List.length_cons] at ih ⊢
      have h1 := renderObj_data_length o
      omega

theorem parseObject_render (r : SummaryRecord) (rest : List Char) :
    parseObject ((renderObj r).data ++ rest) = some (r, rest) := by
  cases r with
  | nil =>
    rw [renderObj]
    rw [show ("\x7b\x7d" : String).data ++ rest = '\x7b' :: '\x7d' :: rest from rfl]
    rw [parseObject.eq_def]
    dsimp only
    rw [if_pos rfl, skipWs_cons, if_neg (by decide : ¬ isWs '\x7d' = true)]
    dsimp only
    rw [if_pos rfl]
  | cons p t =>
    rw [renderObj_cons]
    simp only [String.data_append, List.append_assoc]
    simp only [List.cons_append, List.nil_append]
    rw [parseObject.eq_def]
    dsimp only
    rw [if_pos rfl, skipWs_cons, if_pos (by decide : isWs '\n' = true),
      skipWs_cons, if_pos (by decide : isWs ' ' = true),
      skipWs_cons, if_pos (by decide : isWs ' ' = true),
      skipWs_cons, if_pos (by decide : isWs ' ' = true),
      skipWs_cons, if_pos (by decide : isWs ' ' = true),
      skipWs_joinSep_renderPair]
    have hexp : ∃ r2, (joinSep ",\n    " ((p :: t).map renderPair)).data = '"' :: r2 := by
      cases t with
      | nil =>
        obtain ⟨k, v⟩ := p
        simp only [List.map_cons, List.map_nil, joinSep_single, renderPair_data,
          pyJsonQuote_data, List.cons_append]
        exact ⟨_, rfl⟩
      | cons q t2 =>
        obtain ⟨k, v⟩ := p
        simp only [List.map_cons, joinSep_cons2, String.data_append, renderPair_data,
          pyJsonQuote_data, List.cons_append, List.append_assoc]
        exact ⟨_, rfl⟩
    obtain ⟨r2, heq⟩ := hexp
    rw [heq, List.cons_append]
    dsimp only
    rw [if_neg (by decide : ¬ ('"' : Char) = '\x7d')]
    rw [← List.cons_append, ← heq]
    have hfuel : (p :: t).length ≤
        ((joinSep ",\n    " ((p :: t).map renderPair)).data ++
          '\n' :: ' ' :: ' ' :: '\x7d' :: rest).length := by
      have := length_le_joinSep_renderPair (p :: t)
      simp only [List.length_append]
      omega
    rw [parseMembersF_render (p :: t) _ (by simp) hfuel rest]

theorem renderObj_data_head (r : SummaryRecord) : ∃ J, (renderObj r).data = '\x7b' :: J := by
  cases r with
  | nil => exact ⟨['\x7d'], rfl⟩
  | cons p t =>
    rw [renderObj_cons]
    simp only [String.data_append]
    exact ⟨_, rfl⟩

theorem skipWs_renderObj (r : SummaryRecord) (rest : List Char) :
    skipWs ((renderObj r).data ++ rest) = (renderObj r).data ++ rest := by
  obtain ⟨J, hJ⟩ := renderObj_data_head r
  rw [hJ, List.cons_append, skipWs_cons, if_neg (by decide : ¬ isWs '\x7b' = true)]

theorem skipWs_joinSep_renderObj (o : SummaryRecord) (t : List SummaryRecord)
    (rest : List Char) :
    skipWs ((joinSep ",\n  " ((o :: t).map renderObj)).data ++ rest) =
      (joinSep ",\n  " ((o :: t).map renderObj)).data ++ rest := by
  cases t with
  | nil =>
    simp only [List.map_cons, List.map_nil, joinSep_single]
    exact skipWs_renderObj o rest
  | cons o2 t2 =>
    simp only [List.map_cons, joinSep_cons2, String.data_append, List.append_assoc]
    rw [skipWs_renderObj]

theorem parseElemsF_render :
    ∀ (objs : List SummaryRecord) (fuel : Nat), objs ≠ [] → objs.length ≤ fuel →
      ∀ rest : List Char,
        parseElemsF fuel ((joinSep ",\n  " (objs.map renderObj)).data ++ '\n' :: ']' :: rest) =
          some (objs, rest) := by
  intro objs
  induction objs with
  | nil => intro fuel hne; exact absurd rfl hne
  | cons o t ih =>
    intro fuel _ hlen rest
    obtain ⟨fuel, rfl⟩ : ∃ f, fuel = f + 1 := by
      cases fuel with
      | zero => simp at hlen
      | succ f => exact ⟨f, rfl⟩
    cases t with
    | nil =>
      simp only [List.map_cons, List.map_nil, joinSep_single]
      rw [parseElemsF, parseObject_render]
      dsimp only
      rw [skipWs_cons, if_pos (by decide : isWs '\n' = true),
        skipWs_cons, if_neg (by decide : ¬ isWs ']' = true)]
      dsimp only
      rw [if_neg (by decide : ¬ (']' : Char) = ','), if_pos rfl]
    | cons o2 t2 =>
      simp only [List.map_cons, joinSep_cons2, String.data_append, List.append_assoc,
        List.cons_append]
      rw [parseElemsF, parseObject_render]
      dsimp only
      rw [skipWs_cons, if_neg (by decide : ¬ isWs ',' = true)]
      dsimp only
      rw [if_pos rfl, skipWs_cons, if_pos (by decide : isWs '\n' = true),
        skipWs_cons, if_pos (by decide : isWs ' ' = true),
        skipWs_cons, if_pos (by decide : isWs ' ' = true)]
      rw [List.nil_append, ← List.map_cons renderObj o2 t2, skipWs_joinSep_renderObj]
      have hlen' : (o2 :: t2).length ≤ fuel := by
        simp only [List.length_cons] at hlen ⊢
        omega
      rw [ih fuel (by simp) hlen' rest]

theorem parseJson_write_json (data : List SummaryRecord) :
    parseJson (write_json data) = some data := by
  cases data with
  | nil => rfl
  | cons d t =>
    rw [write_json_cons, parseJson.eq_def]
    simp only [String.data_append, List.cons_append, List.append_assoc, List.nil_append]
    rw [skipWs_cons, if_neg (by decide : ¬ isWs '[' = true)]
    dsimp only
    rw [if_pos rfl, skipWs_cons, if_pos (by decide : isWs '\n' = true),
      skipWs_cons, if_pos (by decide : isWs ' ' = true),
      skipWs_cons, if_pos (by decide : isWs ' ' = true)]
    rw [skipWs_joinSep_renderObj]
    have hexp : ∃ J, (joinSep ",\n  " ((d :: t).map renderObj)).data = '\x7b' :: J := by
      cases t with
      | nil =>
        simp only [List.map_cons, List.map_nil, joinSep_single]
        exact renderObj_data_head d
      | cons o2 t2 =>
        simp only [List.map_cons, joinSep_cons2, String.data_append, List.append_assoc]
        obtain ⟨J, hJ⟩ := renderObj_data_head d
        rw [hJ]
        exact ⟨_, rfl⟩
    obtain ⟨J, hJ⟩ := hexp
    rw [hJ, List.cons_append]
    dsimp only
    rw [if_neg (by decide : ¬ ('\x7b' : Char) = ']')]
    rw [← List.cons_append, ← hJ]
    have hfuel : (d :: t).length ≤
        ((joinSep ",\n  " ((d :: t).map renderObj)).data ++ '\n' :: ']' :: ([] : List Char)).length := by
      have := length_le_joinSep_renderObj (d :: t)
      simp only [List.length_append]
      omega
    rw [show (joinSep ",\n  " ((d :: t).map renderObj)).data ++ '\n' :: ']' :: ([] : List Char) =
      (joinSep ",\n  " ((d :: t).map renderObj)).data ++ '\n' :: ']' :: ([] : List Char) from rfl]
    rw [parseElemsF_render (d :: t) _ (by simp) hfuel []]
    rfl

theorem extractPageTexts_all_ok :
    ∀ pages : List Page, (∀ pg ∈ pages, pageOk pg = true) →
      extractPageTexts pages = .ok (pages.map pageTextD) := by
  intro pages
  induction pages with
  | nil => intro _; rfl
  | cons pg rest ih =>
    intro h
    have hpg := h pg (List.mem_cons_self pg rest)
    cases pg with
    | ok t =>
      simp only [extractPageTexts, pageText]
      rw [ih (fun p hp => h p (List.mem_cons_of_mem _ hp))]
      rfl
    | err m => exact absurd hpg (by simp [pageOk])

theorem extractPageTexts_first_err :
    ∀ (pre : List Page) (msg : String) (post : List Page),
      (∀ pg ∈ pre, pageOk pg = true) →
      extractPageTexts (pre ++ Page.err msg :: post) = .error msg := by
  intro pre
  induction pre with
  | nil => intro msg post _; rfl
  | cons pg pre' ih =>
    intro msg post h
    have hpg := h pg (List.mem_cons_self pg pre')
    cases pg with
    | ok t =>
      simp only [List.cons_append, extractPageTexts, pageText, List.append_eq]
      rw [ih msg post (fun p hp => h p (List.mem_cons_of_mem _ hp))]
    | err m => exact absurd hpg (by simp [pageOk])

/-- C3 counterexample: with sibling directories `foo` and `foo-bar`, the
locator returns `lit/foo/y.pdf` before `lit/foo-bar/x.pdf` (pathlib compares
component lists, and `foo` precedes `foo-bar`), yet lexicographic comparison
of the raw full-path strings puts `lit/foo-bar/x.pdf` first (`'-'` sorts
before `'/'`): the output is not sorted lexicographically by full path as the
claim states. -/
theorem find_pdf_files_string_order_counterexample :
    find_pdf_files ⟨true, "lit", true,
        [⟨"lit/foo-bar/x.pdf", []⟩, ⟨"lit/foo/y.pdf", []⟩]⟩ =
      .ok [⟨"lit/foo/y.pdf", []⟩, ⟨"lit/foo-bar/x.pdf", []⟩] ∧
    ¬ ("lit/foo/y.pdf" : String).data ≤ ("lit/foo-bar/x.pdf" : String).data :=
  ⟨congrArg Except.ok (by decide), by decide⟩

/-- C3 (amended): on an existing root directory the locator returns exactly
the entries whose final name component ends in `.pdf`, sorted in `pathlib`'s
`Path` order — lexicographic on the list of path components, each component
compared character-wise (this agrees with full-path string order except around
prefix-named sibling directories) — and the result is unique, so two runs on
the same tree coincide. -/
theorem find_pdf_files_sorted_exact (env : Env) (h : env.rootExists = true) :
    ∃ l, find_pdf_files env = .ok l ∧
      l.Perm (env.entries.filter matchesPdf) ∧
      List.Sorted pathLe l ∧
      ∀ l2, find_pdf_files env = .ok l2 → l2 = l := by
  refine ⟨(env.entries.filter matchesPdf).insertionSort pathLe, ?_, ?_, ?_, ?_⟩
  · simp [find_pdf_files, h]
  · exact List.perm_insertionSort pathLe _
  · exact List.sorted_insertionSort pathLe _
  · intro l2 h2
    simp [find_pdf_files, h] at h2
    exact h2.symm

theorem find_pdf_files_sorted_exact_witness :
    ∃ l, find_pdf_files ⟨true, "lit", true,
        [⟨"lit/b.pdf", []⟩, ⟨"lit/a.pdf", []⟩, ⟨"lit/c.txt", []⟩]⟩ = .ok l ∧
      l.Perm ([⟨"lit/b.pdf", []⟩, ⟨"lit/a.pdf", []⟩, ⟨"lit/c.txt", []⟩].filter matchesPdf) ∧
      List.Sorted pathLe l ∧
      ∀ l2, find_pdf_files ⟨true, "lit", true,
        [⟨"lit/b.pdf", []⟩, ⟨"lit/a.pdf", []⟩, ⟨"lit/c.txt", []⟩]⟩ = .ok l2 → l2 = l :=
  find_pdf_files_sorted_exact _ rfl

/-- C4: the locator raises `FileNotFoundError` exactly when the root directory
does not exist, and an existing directory with no matching files yields the
empty sequence rather than an error. -/
theorem find_pdf_files_error_iff (env : Env) :
    ((∃ e, find_pdf_files env = .error e) ↔ env.rootExists = false) ∧
    (env.rootExists = true → env.entries.filter matchesPdf = [] →
      find_pdf_files env = .ok []) := by
  constructor
  · constructor
    · rintro ⟨e, he⟩
      cases hx : env.rootExists with
      | false => rfl
      | true => simp [find_pdf_files, hx] at he
    · intro hf
      exact ⟨.fileNotFoundError ("Directory not found: " ++ env.root),
        by simp [find_pdf_files, hf]⟩
  · intro ht hfil
    simp [find_pdf_files, ht, hfil]

theorem find_pdf_files_error_iff_witness :
    (∃ e, find_pdf_files ⟨true, "literature", false, []⟩ = .error e) ∧
    find_pdf_files ⟨true, "literature", true, [⟨"literature/notes.txt", []⟩]⟩ = .ok [] :=
  ⟨(find_pdf_files_error_iff _).1.mpr rfl,
   (find_pdf_files_error_iff _).2 rfl (by decide)⟩

/-- C5: the placeholder summarizer always returns a record whose keys are
exactly the twelve schema fields in order, with `id` set to the given
filename; being total, it never fails, and all records it produces share the
identical field set and order. -/
theorem summarize_paper_schema (text filename : String) :
    (summarize_paper text filename).map Prod.fst = summaryFields ∧
    (summarize_paper text filename).lookup "id" = some filename ∧
    ∀ t2 f2 : String, (summarize_paper text filename).map Prod.fst =
      (summarize_paper t2 f2).map Prod.fst := by
  refine ⟨rfl, ?_, fun t2 f2 => rfl⟩
  rfl

/-- C10: the placeholder summarizer's output is independent of the extracted
text; it depends only on the filename argument. -/
theorem summarize_paper_text_independent (t1 t2 f : String) :
    summarize_paper t1 f = summarize_paper t2 f := rfl

/-- C8: on an empty record sequence the CSV writer produces no output at all
(modelled as `none`: the file is neither created nor modified), while the JSON
writer produces the valid empty-array document `[]`. -/
theorem empty_batch_writers :
    write_csv [] = none ∧ write_json [] = "[]" ∧ parseJson (write_json []) = some [] :=
  ⟨rfl, rfl, rfl⟩

/-- C7: when `pypdf` is available, a document all of whose pages extract
without raising yields the per-page texts (empty string for a page with no
text) joined by newlines in page order; if some page raises, the whole
document's extraction fails with a `RuntimeError` naming the document and
carrying the original cause. -/
theorem extract_text_from_pdf_pages (pdf : PdfFile) :
    ((∀ pg ∈ pdf.pages, pageOk pg = true) →
      extract_text_from_pdf true pdf = .ok (joinSep "\n" (pdf.pages.map pageTextD))) ∧
    (∀ (pre : List Page) (msg : String) (post : List Page),
      pdf.pages = pre ++ Page.err msg :: post →
      (∀ pg ∈ pre, pageOk pg = true) →
      extract_text_from_pdf true pdf =
        .error (.runtimeError ("Failed to extract text from " ++ pdf.path ++ ": " ++ msg))) := by
  constructor
  · intro h
    simp only [extract_text_from_pdf, if_true]
    rw [extractPageTexts_all_ok pdf.pages h]
  · intro pre msg post hpages hpre
    simp only [extract_text_from_pdf, if_true]
    rw [hpages, extractPageTexts_first_err pre msg post hpre]

theorem extract_text_from_pdf_pages_witness :
    extract_text_from_pdf true ⟨"p.pdf", [Page.ok (some "one"), Page.ok none]⟩ = .ok "one\n" ∧
    extract_text_from_pdf true ⟨"q.pdf", [Page.ok (some "a"), Page.err "boom"]⟩ =
      .error (.runtimeError "Failed to extract text from q.pdf: boom") :=
  ⟨((extract_text_from_pdf_pages ⟨"p.pdf", [Page.ok (some "one"), Page.ok none]⟩).1
      (by decide)).trans (by rfl),
   ((extract_text_from_pdf_pages ⟨"q.pdf", [Page.ok (some "a"), Page.err "boom"]⟩).2
      [Page.ok (some "a")] "boom" [] rfl (by decide)).trans (by rfl)⟩

/-- C6: when extraction succeeds on every document, the orchestrator returns
one record per document, in input order, the i-th record's `id` being the base
filename of the i-th document's path. -/
theorem summarize_pdfs_batch (avail : Bool) (pdfs : List PdfFile)
    (h : ∀ pdf ∈ pdfs, ∃ t, extract_text_from_pdf avail pdf = .ok t) :
    ∃ l, summarize_pdfs avail pdfs = .ok l ∧ l.length = pdfs.length ∧
      ∀ i, i < pdfs.length →
        (l.getD i []).lookup "id" = some (baseName ((pdfs.getD i ⟨"", []⟩).path)) := by
  induction pdfs with
  | nil => exact ⟨[], rfl, rfl, fun i hi => absurd hi (by simp)⟩
  | cons pdf rest ih =>
    obtain ⟨t, ht⟩ := h pdf (List.mem_cons_self pdf rest)
    obtain ⟨l, hl, hlen, hid⟩ := ih (fun p hp => h p (List.mem_cons_of_mem _ hp))
    refine ⟨summarize_paper t (baseName pdf.path) :: l, ?_, ?_, ?_⟩
    · simp only [summarize_pdfs]
      rw [ht, hl]
    · simp [hlen]
    · intro i hi
      cases i with
      | zero => rfl
      | succ i =>
        simp only [List.getD_cons_succ]
        exact hid i (by simpa using Nat.lt_of_succ_lt_succ hi)

theorem summarize_pdfs_batch_witness :
    ∃ l, summarize_pdfs true [⟨"lit/a.pdf", [Page.ok (some "x")]⟩, ⟨"lit/b.pdf", []⟩] = .ok l ∧
      l.length = ([⟨"lit/a.pdf", [Page.ok (some "x")]⟩, ⟨"lit/b.pdf", []⟩] : List PdfFile).length ∧
      ∀ i, i < ([⟨"lit/a.pdf", [Page.ok (some "x")]⟩, ⟨"lit/b.pdf", []⟩] : List PdfFile).length →
        (l.getD i []).lookup "id" =
          some (baseName ((([⟨"lit/a.pdf", [Page.ok (some "x")]⟩,
            ⟨"lit/b.pdf", []⟩] : List PdfFile).getD i ⟨"", []⟩).path)) :=
  summarize_pdfs_batch true _ (by
    intro pdf hm
    rcases List.mem_cons.mp hm with rfl | hm2
    · exact ⟨"x", rfl⟩
    · rcases List.mem_cons.mp hm2 with rfl | hm3
      · exact ⟨"", rfl⟩
      · exact absurd hm3 (by simp))

/-- C1: if summarizing the located batch fails, `main` propagates that error
and neither output file is written; conversely any write implies the whole
batch succeeded, so outputs appear only after every document was processed. -/
theorem mainRun_fail_fast (env : Env) :
    (∀ e, env.rootExists = true →
      summarize_pdfs env.pypdfAvailable (pdfsOf env) = .error e →
      mainRun env = (.error e, noWrites)) ∧
    ((mainRun env).2.jsonOut ≠ none ∨ (mainRun env).2.csvOut ≠ none →
      ∃ l, env.rootExists = true ∧
        summarize_pdfs env.pypdfAvailable (pdfsOf env) = .ok l ∧
        (mainRun env).2.jsonOut = some (write_json l)) := by
  have hsplit : ∀ h : env.rootExists = true, find_pdf_files env = .ok (pdfsOf env) := by
    intro h
    simp [find_pdf_files, pdfsOf, h]
  constructor
  · intro e hroot hsum
    simp only [mainRun]
    rw [hsplit hroot]
    dsimp only
    rw [hsum]
  · intro hw
    cases hroot : env.rootExists with
    | false =>
      exfalso
      have hm : mainRun env = (.error (.fileNotFoundError ("Directory not found: " ++ env.root)),
          noWrites) := by
        simp only [mainRun, find_pdf_files, hroot]
        rfl
      rw [hm] at hw
      simp [noWrites] at hw
    | true =>
      cases hsum : summarize_pdfs env.pypdfAvailable (pdfsOf env) with
      | error e =>
        exfalso
        have hm : mainRun env = (.error e, noWrites) := by
          simp only [mainRun]
          rw [hsplit hroot]
          dsimp only
          rw [hsum]
        rw [hm] at hw
        simp [noWrites] at hw
      | ok l =>
        refine ⟨l, rfl, rfl, ?_⟩
        simp only [mainRun]
        rw [hsplit hroot]
        dsimp only
        rw [hsum]

theorem mainRun_fail_fast_witness :
    mainRun ⟨true, "lit", true, [⟨"lit/a.pdf", [Page.err "corrupt"]⟩]⟩ =
      (.error (.runtimeError "Failed to extract text from lit/a.pdf: corrupt"), noWrites) :=
  (mainRun_fail_fast _).1 _ rfl (by rfl)

/-- C2 counterexample: with `pypdf` unavailable and a directory containing no
PDF files, the run does not fail and does write the JSON output file, so the
claim that every such run fails at startup with no output written is false. -/
theorem pypdf_missing_counterexample :
    Env.pypdfAvailable ⟨false, "literature", true, []⟩ = false ∧
    mainRun ⟨false, "literature", true, []⟩ = (.ok (), ⟨some "[]", none⟩) :=
  ⟨rfl, rfl⟩

/-- C2 (amended): with `pypdf` unavailable, a run whose located batch is
non-empty fails with the actionable installation-hint error at the first
document, before reading any page, and writes no output; a run that locates no
PDF files instead succeeds and writes the empty JSON array. -/
theorem mainRun_pypdf_missing (env : Env) (hroot : env.rootExists = true)
    (hav : env.pypdfAvailable = false) :
    (pdfsOf env ≠ [] → mainRun env = (.error (.runtimeError pypdfMissingMsg), noWrites)) ∧
    (pdfsOf env = [] → mainRun env = (.ok (), ⟨some "[]", none⟩)) := by
  have hfind : find_pdf_files env = .ok (pdfsOf env) := by
    simp [find_pdf_files, pdfsOf, hroot]
  constructor
  · intro hne
    obtain ⟨p, rest, hp⟩ : ∃ p rest, pdfsOf env = p :: rest := by
      cases hl : pdfsOf env with
      | nil => exact absurd hl hne
      | cons p rest => exact ⟨p, rest, rfl⟩
    simp only [mainRun]
    rw [hfind, hp]
    simp only [summarize_pdfs, extract_text_from_pdf, hav]
    rfl
  · intro h0
    simp only [mainRun]
    rw [hfind, h0]
    rfl

theorem mainRun_pypdf_missing_witness :
    mainRun ⟨false, "lit", true, [⟨"lit/a.pdf", [Page.ok (some "x")]⟩]⟩ =
      (.error (.runtimeError pypdfMissingMsg), noWrites) ∧
    mainRun ⟨false, "lit", true, []⟩ = (.ok (), ⟨some "[]", none⟩) :=
  ⟨(mainRun_pypdf_missing ⟨false, "lit", true, [⟨"lit/a.pdf", [Page.ok (some "x")]⟩]⟩
      rfl rfl).1 (by decide),
   (mainRun_pypdf_missing ⟨false, "lit", true, []⟩ rfl rfl).2 rfl⟩

/-- C9: writing a non-empty record sequence with `write_json` and parsing the
resulting document back reproduces the records field for field: every string
value (including empty strings and embedded newlines), the field order inside
each record, and the record order are all preserved. -/
theorem write_json_round_trip (rs : List SummaryRecord) (hne : rs ≠ []) :
    parseJson (write_json rs) = some rs :=
  parseJson_write_json rs

theorem write_json_round_trip_witness :
    ([[("id", "a.pdf"), ("main_findings", "x\ny"), ("t", "")]] : List SummaryRecord) ≠ [] ∧
    parseJson (write_json [[("id", "a.pdf"), ("main_findings", "x\ny"), ("t", "")]]) =
      some [[("id", "a.pdf"), ("main_findings", "x\ny"), ("t", "")]] :=
  ⟨by decide, write_json_round_trip _ (by decide)⟩
